import Mathlib

/-!
Shallow embedding of the opportunity-extraction and website-health pipeline of
the `academic-directory` repository (files `src/enhanced_academic_tracker.py`
and `src/web_report_generator.py`), together with proofs of the testable
properties of the specification.

Modelling conventions:
* HTML parsing (BeautifulSoup) is external to the repository; a parsed page is
  modelled as the list of its elements/anchors in document order, each carrying
  its tag name, optional `href` attribute and visible text.
* HTTP fetching is external; a fetch outcome is either a failure (no completed
  response) or a completed response carrying status code, elapsed time and the
  page's visible text.
* Dates (`posted_date`, always the `%Y-%m-%d` rendering of a day) are modelled
  as integer day numbers; ISO date strings compare lexicographically exactly as
  their day numbers compare, so SQLite string comparison against
  `date('now','-30 days')` is integer comparison against `today - 30`.
* The SQLite table `job_opportunities` is modelled as a list of rows; the
  `url TEXT UNIQUE` constraint together with `INSERT OR REPLACE` makes one
  insert delete every row carrying the same url and append the fresh row.
-/

namespace AcademicDirectory

/-! ## String utilities (Python `in`, `str.lower`, `str.strip`, `urljoin`) -/

/-- Does `hay` start with `pat`? (List-level helper for substring search.) -/
def startsWithL : List Char → List Char → Bool
  | _, [] => true
  | [], _ :: _ => false
  | c :: cs, p :: ps => c == p && startsWithL cs ps

/-- Does `hay` contain `pat` as a contiguous sublist? -/
def containsL (hay pat : List Char) : Bool :=
  match hay with
  | [] => pat.isEmpty
  | _ :: t => startsWithL hay pat || containsL t pat

/-- Python's substring test `pat in s`. -/
def strContains (s pat : String) : Bool :=
  containsL s.toList pat.toList

/-- The whitespace characters stripped by Python's `str.strip()` (ASCII part). -/
def isPySpace (c : Char) : Bool :=
  c == ' ' || c == '\t' || c == '\n' || c == '\r' || c == '\x0b' || c == '\x0c'

/-- Python's `str.strip()`: drop leading and trailing whitespace. -/
def pyStrip (s : String) : String :=
  String.mk (((s.toList.dropWhile isPySpace).reverse.dropWhile isPySpace).reverse)

/-- Python's `str.lower()` (ASCII case folding). -/
def pyLower (s : String) : String :=
  String.mk (s.toList.map Char.toLower)

/-- Split a character list at the first occurrence of `c`; the second component
starts with `c` when `c` occurs. -/
def splitAtChar (c : Char) : List Char → List Char × List Char
  | [] => ([], [])
  | x :: xs =>
    if x = c then ([], x :: xs)
    else
      let p := splitAtChar c xs
      (x :: p.1, p.2)

/-- Split a URL's characters at the scheme separator `"://"`: returns the part
up to and including the separator, and the rest. -/
def splitSchemeSep : List Char → Option (List Char × List Char)
  | ':' :: '/' :: '/' :: rest => some ([':', '/', '/'], rest)
  | c :: cs => (splitSchemeSep cs).map (fun p => (c :: p.1, p.2))
  | [] => none

/-- The `scheme://authority` part of a URL (empty if no scheme separator). -/
def origin (base : String) : String :=
  match splitSchemeSep base.toList with
  | some (pre, rest) => String.mk (pre ++ (splitAtChar '/' rest).1)
  | none => ""

/-- Drop the characters after the last `'/'` (keeping the `'/'`). -/
def dropLastSegment (cs : List Char) : List Char :=
  (cs.reverse.dropWhile (fun c => c ≠ '/')).reverse

/-- Model of `urllib.parse.urljoin` for the reference forms the scraper meets:
absolute hrefs pass through, root-relative hrefs replace the base's path,
other relative hrefs replace the base's last path segment.  (No `./`/`../`
normalisation; the repository's pages use root-relative hrefs.) -/
def urljoin (base href : String) : String :=
  if href = "" then base
  else if strContains href "://" then href
  else if href.toList.head? = some '/' then
    origin base ++ href
  else
    let o := origin base
    let path := base.drop o.length
    if strContains path "/" then String.mk (dropLastSegment base.toList) ++ href
    else o ++ "/" ++ href

/-! ## Data model -/

/-- One discovered opportunity (`JobOpportunity` dataclass / row of the
`job_opportunities` table).  `title` and `institution` are `Option String`:
the Python type annotations are unenforced, while the corresponding columns
are `NOT NULL`, so a `none` value is exactly what makes the store raise an
integrity error.  `requirements` is stored JSON-serialised; the serialisation
is injective on lists of strings, so the row keeps the list itself. -/
structure JobOpportunity where
  title : Option String
  institution : Option String
  location : String
  application_deadline : Option String
  posted_date : Int
  description : String
  requirements : List String
  contact_info : String
  url : String
  source : String
deriving DecidableEq, Repr

/-- An anchor element of a parsed page: optional `href` attribute and visible
text, in document order. -/
structure Anchor where
  href : Option String
  text : String
deriving DecidableEq, Repr

/-- A generic parsed element (`soup.find_all(['a', 'div', 'span'])`): tag
name, optional `href`, visible text. -/
structure HtmlElement where
  tag : String
  href : Option String
  text : String
deriving DecidableEq, Repr

/-- Outcome of fetching a monitored URL: either the request failed before a
response completed, or a response arrived with a status code, an elapsed-time
measurement (abstract integer; the 2-decimal rounding is not modelled) and the
page's visible text (`soup.get_text()`). -/
inductive FetchOutcome where
  | failure
  | completed (status_code : Int) (elapsed : Int) (pageText : String)
deriving DecidableEq, Repr

/-- The result dictionary built by `WebsiteTester.test_website_accessibility`
(row of the `website_monitoring` table). -/
structure WebsiteResult where
  url : String
  accessible : Bool
  response_time : Option Int
  status_code : Option Int
  has_job_section : Bool
  last_checked : String
deriving DecidableEq, Repr

/-- Store-level error raised by `cursor.execute` (`sqlite3.IntegrityError`:
constraint violations, uniqueness included). -/
inductive DbError where
  | integrityError
deriving DecidableEq, Repr

/-! ## WebsiteTester -/

/-- Vocabulary scanned for in the page text
(`job_keywords` in `test_website_accessibility`). -/
def job_keywords : List String :=
  ["job", "career", "position", "opening", "vacancy", "phd", "postdoc"]

/-- `WebsiteTester.test_website_accessibility`: the result starts from the
all-default dictionary; only a completed response fills in timing and status,
and only a 200 response is scanned for job vocabulary. -/
def test_website_accessibility (url now : String) (outcome : FetchOutcome) :
    WebsiteResult :=
  match outcome with
  | .failure => ⟨url, false, none, none, false, now⟩
  | .completed sc el txt =>
    let accessible := sc == 200
    let hjs :=
      if accessible then
        job_keywords.any (fun k => strContains (pyLower txt) k)
      else false
    ⟨url, accessible, some el, some sc, hjs, now⟩

/-- Vocabulary matched against anchor text (`job_patterns` in
`find_job_pages`; the regexes are literal words, so `re.search` is substring
containment). -/
def job_patterns : List String :=
  ["job", "career", "position", "opening", "vacancy",
   "phd", "postdoc", "graduate", "student"]

/-- Does an anchor's lowercased visible text match any job pattern? -/
def anchorQualifies (a : Anchor) : Bool :=
  job_patterns.any (fun p => strContains (pyLower a.text) p)

/-- One step of the accumulation loop of `find_job_pages`: anchors without an
`href` are not visited at all (`find_all('a', href=True)`), a qualifying
anchor's resolved URL is appended unless already collected. -/
def findJobPagesStep (base_url : String) (acc : List String) (a : Anchor) :
    List String :=
  match a.href with
  | none => acc
  | some h =>
    if anchorQualifies a then
      let full_url := urljoin base_url h
      if full_url ∈ acc then acc else acc ++ [full_url]
    else acc

/-- `WebsiteTester.find_job_pages`, extraction part: collect resolved URLs of
anchors whose text matches the job vocabulary, first-seen deduplicated, then
truncated to the first 5 (`return job_pages[:5]`). -/
def find_job_pages (base_url : String) (anchors : List Anchor) : List String :=
  (anchors.foldl (findJobPagesStep base_url) []).take 5

/-- Specification-side description for `find_job_pages`: the resolved URLs of
the qualifying anchors, in document order. -/
def resolvedQualifying (base_url : String) (anchors : List Anchor) :
    List String :=
  anchors.filterMap (fun a =>
    match a.href with
    | none => none
    | some h => if anchorQualifies a then some (urljoin base_url h) else none)

/-- One step of first-seen deduplication: append `u` unless already seen. -/
def dedupStep (acc : List String) (u : String) : List String :=
  if u ∈ acc then acc else acc ++ [u]

/-- Specification-side description: first-seen deduplication of a list. -/
def dedupFirstSeen (l : List String) : List String :=
  l.foldl dedupStep []

/-! ## UniversityJobScraper -/

/-- Does a character list start with `"/job-opportunities/"` followed by at
least one digit?  (One candidate position of the regex
`/job-opportunities/\d+`.) -/
def matchesPsiAt (cs : List Char) : Bool :=
  startsWithL cs "/job-opportunities/".toList &&
    match cs.drop 19 with
    | d :: _ => d.isDigit
    | [] => false

/-- `re.search` of the pattern `/job-opportunities/\d+` inside an href. -/
def hrefMatchesPsiPattern (href : String) : Bool :=
  go href.toList
where
  /-- Try every suffix of the href. -/
  go : List Char → Bool
    | [] => false
    | c :: cs => matchesPsiAt (c :: cs) || go cs

/-- `UniversityJobScraper.scrape_psi_jobs`, extraction part (the fetch of the
hardcoded PSI listing URL is external; the extraction is parameterised by the
base URL it resolves against).  Anchors whose href matches the fixed path
pattern are capped to the first 10; of those, the ones whose stripped text
contains `"phd"` or `"student"` (case-insensitively) become opportunities. -/
def scrape_psi_jobs (today : Int) (base_url : String) (anchors : List Anchor) :
    List JobOpportunity :=
  ((anchors.filter (fun a =>
      match a.href with
      | some h => hrefMatchesPsiPattern h
      | none => false)).take 10).filterMap (fun a =>
    match a.href with
    | none => none
    | some h =>
      let job_title := pyStrip a.text
      if strContains (pyLower job_title) "phd" ||
          strContains (pyLower job_title) "student" then
        some ⟨some job_title, some "Paul Scherrer Institute", "Switzerland",
          none, today, "", [], "", urljoin base_url h, "university_website"⟩
      else none)

/-- PhD vocabulary of the generic scraper (`phd_keywords`). -/
def phd_keywords : List String :=
  ["phd", "doctorate", "doctoral", "graduate student", "research assistant"]

/-- Loop body of `scrape_generic_university` for one element: keyword check on
the lowercased text first, then the element must be an `a` with a truthy
(non-empty) `href` to emit a candidate. -/
def scrapeGenericStep (today : Int) (university_name job_page_url : String)
    (e : HtmlElement) : Option JobOpportunity :=
  if phd_keywords.any (fun k => strContains (pyLower e.text) k) then
    if e.tag == "a" then
      match e.href with
      | some h =>
        if h = "" then none
        else
          some ⟨some (pyStrip e.text), some university_name, "", none, today, "",
            [], "", urljoin job_page_url h, "university_website"⟩
      | none => none
    else none
  else none

/-- `UniversityJobScraper.scrape_generic_university`, extraction part: one
candidate per matching linked element, in document order. -/
def scrape_generic_university (today : Int) (university_name job_page_url : String)
    (elements : List HtmlElement) : List JobOpportunity :=
  elements.filterMap (scrapeGenericStep today university_name job_page_url)

/-! ## DatabaseManager -/

/-- Effect of `INSERT OR REPLACE` on the `url TEXT UNIQUE` table: every stored
row carrying the same url is deleted and the fresh row is inserted. -/
def insertOrReplaceRow (p : JobOpportunity) (db : List JobOpportunity) :
    List JobOpportunity :=
  db.filter (fun r => decide (r.url ≠ p.url)) ++ [p]

/-- One `cursor.execute` of the `INSERT OR REPLACE` statement: a `none` in a
`NOT NULL` column raises `sqlite3.IntegrityError`; a url collision never does
(`OR REPLACE` resolves it by replacement). -/
def execInsertOrReplace (p : JobOpportunity) (db : List JobOpportunity) :
    Except DbError (List JobOpportunity) :=
  if p.title.isNone || p.institution.isNone then .error .integrityError
  else .ok (insertOrReplaceRow p db)

/-- Loop body of `save_opportunities` for one posting: the `try/except
sqlite3.IntegrityError` around `cursor.execute` logs an integrity error and
continues with the database unchanged. -/
def saveStep (d : List JobOpportunity) (opp : JobOpportunity) :
    List JobOpportunity :=
  match execInsertOrReplace opp d with
  | .ok d2 => d2
  | .error _ => d

/-- `DatabaseManager.save_opportunities`: execute each posting in turn,
skipping integrity errors. -/
def save_opportunities (db : List JobOpportunity)
    (opportunities : List JobOpportunity) : List JobOpportunity :=
  opportunities.foldl saveStep db

/-! ## Aggregator (WebReportGenerator.get_data_summary) -/

/-- The `recent_jobs` count of `WebReportGenerator.get_data_summary`:
`COUNT(*) WHERE posted_date >= date('now','-30 days')`, with dates as day
numbers (ISO date strings compare lexicographically as their day numbers). -/
def recent_jobs_count (today : Int) (db : List JobOpportunity) : Nat :=
  (db.filter (fun r => decide (today - 30 ≤ r.posted_date))).length

/-! ## Helper lemmas -/

/-- Unfolding `resolvedQualifying` one anchor at a time. -/
lemma resolvedQualifying_cons (base : String) (a : Anchor) (rest : List Anchor) :
    resolvedQualifying base (a :: rest) =
      (match a.href with
       | none => resolvedQualifying base rest
       | some h =>
         if anchorQualifies a then
           urljoin base h :: resolvedQualifying base rest
         else resolvedQualifying base rest) := by
  cases h : a.href with
  | none => simp [resolvedQualifying, List.filterMap_cons, h]
  | some hr =>
    by_cases hq : anchorQualifies a <;>
      simp [resolvedQualifying, List.filterMap_cons, h, hq]

/-- The accumulation loop of `find_job_pages` is first-seen deduplication of
the resolved qualifying URLs. -/
lemma foldl_findJobPagesStep_eq (base : String) :
    ∀ (anchors : List Anchor) (acc : List String),
      List.foldl (findJobPagesStep base) acc anchors =
        List.foldl dedupStep acc (resolvedQualifying base anchors) := by
  intro anchors
  induction anchors with
  | nil => intro acc; rfl
  | cons a rest ih =>
    intro acc
    rw [List.foldl_cons, resolvedQualifying_cons]
    cases h : a.href with
    | none => simp only [findJobPagesStep, h, ih]
    | some hr =>
      by_cases hq : anchorQualifies a <;>
        simp [findJobPagesStep, h, hq, ih, List.foldl_cons, dedupStep]

/-- `find_job_pages` is the 5-truncation of the deduplicated qualifying URLs. -/
lemma find_job_pages_eq_dedup_take (base : String) (anchors : List Anchor) :
    find_job_pages base anchors =
      (dedupFirstSeen (resolvedQualifying base anchors)).take 5 := by
  unfold find_job_pages dedupFirstSeen
  rw [foldl_findJobPagesStep_eq]

/-- First-seen deduplication keeps an accumulator duplicate-free. -/
lemma foldl_dedupStep_nodup :
    ∀ (l acc : List String), acc.Nodup → (List.foldl dedupStep acc l).Nodup := by
  intro l
  induction l with
  | nil => intro acc h; exact h
  | cons u rest ih =>
    intro acc h
    rw [List.foldl_cons]
    apply ih
    unfold dedupStep
    split
    · exact h
    · rename_i hmem
      simp [List.nodup_append, h, hmem]

/-- Filtering the replaced table for the fresh row's url finds exactly the
fresh row. -/
lemma filter_insertOrReplaceRow (p : JobOpportunity) (db : List JobOpportunity) :
    (insertOrReplaceRow p db).filter (fun r => decide (r.url = p.url)) = [p] := by
  unfold insertOrReplaceRow
  rw [List.filter_append, List.filter_filter]
  simp

/-! ## Claims -/

/-- C1: upserting a posting twice with the same url (both rows well-formed,
fields otherwise arbitrary) leaves exactly one stored row for that url, and
that row carries the second upsert's field values — last-write-wins
replacement, not accumulation. -/
theorem upsert_twice_last_write_wins (db : List JobOpportunity)
    (p1 p2 : JobOpportunity) (_hurl : p1.url = p2.url)
    (h1t : p1.title.isSome = true) (h1i : p1.institution.isSome = true)
    (h2t : p2.title.isSome = true) (h2i : p2.institution.isSome = true) :
    (save_opportunities db [p1, p2]).filter
      (fun r => decide (r.url = p2.url)) = [p2] := by
  obtain ⟨t1, ht1⟩ := Option.isSome_iff_exists.mp h1t
  obtain ⟨i1, hi1⟩ := Option.isSome_iff_exists.mp h1i
  obtain ⟨t2, ht2⟩ := Option.isSome_iff_exists.mp h2t
  obtain ⟨i2, hi2⟩ := Option.isSome_iff_exists.mp h2i
  have hsave : save_opportunities db [p1, p2] =
      insertOrReplaceRow p2 (insertOrReplaceRow p1 db) := by
    simp [save_opportunities, saveStep, execInsertOrReplace, ht1, hi1, ht2, hi2]
  rw [hsave, filter_insertOrReplaceRow]

/-- C1 witness: two concrete upserts with the same url. -/
theorem upsert_twice_last_write_wins_witness :
    (save_opportunities []
      [⟨some "A", some "I", "", none, 0, "", [], "", "https://x.edu/1", "other"⟩,
       ⟨some "B", some "J", "CH", none, 1, "", [], "", "https://x.edu/1", "linkedin"⟩]).filter
      (fun r => decide (r.url = "https://x.edu/1")) =
      [⟨some "B", some "J", "CH", none, 1, "", [], "", "https://x.edu/1", "linkedin"⟩] :=
  upsert_twice_last_write_wins []
    ⟨some "A", some "I", "", none, 0, "", [], "", "https://x.edu/1", "other"⟩
    ⟨some "B", some "J", "CH", none, 1, "", [], "", "https://x.edu/1", "linkedin"⟩
    rfl rfl rfl rfl rfl

/-- C2 counterexample: on the pattern-ID strategy the href `/jobs/42` does not
match the fixed path pattern `/job-opportunities/\d+`, so the claimed input
yields zero candidates, not one. -/
theorem pattern_id_example_refuted :
    scrape_psi_jobs 0 "https://x.edu"
      [⟨some "/jobs/42", "PhD Student Position"⟩] = [] := rfl

/-- C2 amended: an anchor whose href matches the fixed pattern
(`/job-opportunities/42`) and whose text contains "phd"/"student" yields
exactly one candidate with the resolved url and source `university_website`. -/
theorem pattern_id_example_amended (today : Int) :
    scrape_psi_jobs today "https://x.edu"
      [⟨some "/job-opportunities/42", "PhD Student Position"⟩] =
    [⟨some "PhD Student Position", some "Paul Scherrer Institute",
      "Switzerland", none, today, "", [], "",
      "https://x.edu/job-opportunities/42", "university_website"⟩] := rfl

/-- C3: on the anchor-keyword strategy a linked element (an `a` with a truthy
href) produces a candidate iff its visible text contains one of the PhD
vocabulary terms case-insensitively; the candidate's title is the trimmed
text and its url the href resolved against the page url.  `<a href="/about">
About Us</a>` yields zero candidates. -/
theorem anchor_keyword_strategy_iff :
    (∀ (today : Int) (name url : String) (e : HtmlElement) (h : String),
      e.tag = "a" → e.href = some h → h ≠ "" →
      (((scrapeGenericStep today name url e).isSome = true) ↔
        phd_keywords.any (fun k => strContains (pyLower e.text) k) = true)
      ∧ (∀ o, scrapeGenericStep today name url e = some o →
          o.title = some (pyStrip e.text) ∧ o.url = urljoin url h))
    ∧ scrape_generic_university 0 "U" "https://x.edu"
        [⟨"a", some "/about", "About Us"⟩] = [] := by
  constructor
  · intro today name url e h htag hhref hne
    constructor
    · by_cases hk : phd_keywords.any (fun k => strContains (pyLower e.text) k) <;>
        simp [scrapeGenericStep, htag, hhref, hne, hk]
    · intro o ho
      unfold scrapeGenericStep at ho
      rw [htag, hhref] at ho
      by_cases hk : phd_keywords.any (fun k => strContains (pyLower e.text) k)
      · simp [hk, hne] at ho
        subst ho
        exact ⟨rfl, rfl⟩
      · simp [hk] at ho
  · rfl

/-- C3 witness: the iff at a concrete matching linked element. -/
theorem anchor_keyword_strategy_iff_witness :
    ((scrapeGenericStep 0 "U" "https://x.edu"
      ⟨"a", some "/p", "PhD vacancy"⟩).isSome = true) ↔
    (phd_keywords.any (fun k => strContains (pyLower "PhD vacancy") k) = true) :=
  (anchor_keyword_strategy_iff.1 0 "U" "https://x.edu"
    ⟨"a", some "/p", "PhD vacancy"⟩ "/p" rfl rfl (by decide)).1

/-- C4 counterexample: a completed non-200 response whose page text contains
job vocabulary still gets `has_job_section = false` — the scan only happens
for status 200, refuting the claim for every completed response. -/
theorem has_job_section_completed_refuted :
    (test_website_accessibility "https://x.edu" "2026-10-12 00:00:00"
      (.completed 404 1 "Open PhD positions and jobs")).has_job_section = false
    ∧ strContains (pyLower "Open PhD positions and jobs") "job" = true := by
  constructor <;> rfl

/-- C4 amended: for a completed response with status 200, `has_job_section`
is true iff the lowercased page text contains one of the job vocabulary
terms; for a completed non-200 response it is false regardless of content. -/
theorem has_job_section_amended (url now : String) (sc el : Int) (txt : String) :
    (sc = 200 →
      ((test_website_accessibility url now (.completed sc el txt)).has_job_section = true ↔
        job_keywords.any (fun k => strContains (pyLower txt) k) = true))
    ∧ (sc ≠ 200 →
      (test_website_accessibility url now (.completed sc el txt)).has_job_section = false) := by
  constructor
  · intro h
    subst h
    simp [test_website_accessibility]
  · intro h
    simp [test_website_accessibility, h]

/-- C4 witness: the amended classification at concrete completed fetches. -/
theorem has_job_section_amended_witness :
    (test_website_accessibility "https://x.edu" "2026-10-12 00:00:00"
      (.completed 200 1 "Open jobs")).has_job_section = true
    ∧ (test_website_accessibility "https://x.edu" "2026-10-12 00:00:00"
      (.completed 500 1 "Open jobs")).has_job_section = false :=
  ⟨((has_job_section_amended "https://x.edu" "2026-10-12 00:00:00" 200 1
      "Open jobs").1 rfl).mpr (by decide),
   (has_job_section_amended "https://x.edu" "2026-10-12 00:00:00" 500 1
      "Open jobs").2 (by decide)⟩

/-- C5: `find_job_pages` returns at most 5 URLs, with no duplicates, and is
the 5-truncation of the first-seen-deduplicated qualifying links in document
order. -/
theorem find_job_pages_cap_dedup_order (base_url : String)
    (anchors : List Anchor) :
    (find_job_pages base_url anchors).length ≤ 5
    ∧ (find_job_pages base_url anchors).Nodup
    ∧ find_job_pages base_url anchors =
        (dedupFirstSeen (resolvedQualifying base_url anchors)).take 5 := by
  refine ⟨?_, ?_, find_job_pages_eq_dedup_take base_url anchors⟩
  · rw [find_job_pages_eq_dedup_take]
    simp [List.length_take]
  · rw [find_job_pages_eq_dedup_take]
    exact (List.take_sublist 5 _).nodup
      (foldl_dedupStep_nodup _ [] List.nodup_nil)

/-- C6: when no anchor's text matches the job vocabulary, `find_job_pages`
returns the empty sequence. -/
theorem find_job_pages_empty_of_no_vocab_match (base_url : String)
    (anchors : List Anchor)
    (h : ∀ a ∈ anchors, anchorQualifies a = false) :
    find_job_pages base_url anchors = [] := by
  have hres : resolvedQualifying base_url anchors = [] := by
    induction anchors with
    | nil => rfl
    | cons a rest ih =>
      rw [resolvedQualifying_cons]
      have hrest := ih (fun x hx => h x (List.mem_cons_of_mem a hx))
      cases hh : a.href with
      | none => exact hrest
      | some hr => simp [h a (List.mem_cons_self a rest), hrest]
  rw [find_job_pages_eq_dedup_take, hres]
  rfl

/-- C6 witness: a page whose only anchor text matches no vocabulary term. -/
theorem find_job_pages_empty_of_no_vocab_match_witness :
    find_job_pages "https://x.edu" [⟨some "/about", "About Us"⟩] = [] :=
  find_job_pages_empty_of_no_vocab_match "https://x.edu"
    [⟨some "/about", "About Us"⟩] (by decide)

/-- C7: a fetch failure classifies to accessible = false, response_time =
null, status_code = null, has_job_section = false. -/
theorem classify_fetch_failure_defaults (url now : String) :
    test_website_accessibility url now .failure =
      ⟨url, false, none, none, false, now⟩ := rfl

/-- C8: the aggregator's "recent" count counts postings dated within the last
30 days: all postings dated today gives the total count, all postings dated
60 days ago gives zero. -/
theorem recent_jobs_window_counts (today : Int) (db : List JobOpportunity) :
    ((∀ r ∈ db, r.posted_date = today) →
      recent_jobs_count today db = db.length)
    ∧ ((∀ r ∈ db, r.posted_date = today - 60) →
      recent_jobs_count today db = 0) := by
  constructor
  · intro h
    unfold recent_jobs_count
    rw [List.filter_eq_self.mpr]
    intro r hr
    rw [h r hr]
    simp only [decide_eq_true_eq]
    omega
  · intro h
    unfold recent_jobs_count
    rw [List.filter_eq_nil_iff.mpr]
    · rfl
    · intro r hr
      rw [h r hr]
      simp only [decide_eq_true_eq]
      omega

/-- C8 witness: one posting dated today counts, one dated 60 days ago does
not. -/
theorem recent_jobs_window_counts_witness :
    recent_jobs_count 100
      [⟨some "T", some "I", "", none, 100, "", [], "", "https://x.edu/1", "other"⟩] = 1
    ∧ recent_jobs_count 100
      [⟨some "T", some "I", "", none, 40, "", [], "", "https://x.edu/1", "other"⟩] = 0 :=
  ⟨(recent_jobs_window_counts 100 _).1 (by decide),
   (recent_jobs_window_counts 100 _).2 (by decide)⟩

/-- C9: a store integrity error (uniqueness violations included) raised for
one posting of a batch is silently skipped and the remaining postings are
still processed; moreover a url collision alone never errors — `OR REPLACE`
resolves it by replacement — so `save_opportunities` never propagates a
uniqueness violation. -/
theorem save_opportunities_integrity_error_skipped :
    (∀ (db pre post : List JobOpportunity) (p : JobOpportunity) (e : DbError),
      execInsertOrReplace p (save_opportunities db pre) = .error e →
      save_opportunities db (pre ++ p :: post) =
        save_opportunities db (pre ++ post))
    ∧ (∀ (p : JobOpportunity) (db : List JobOpportunity),
      p.title.isSome = true → p.institution.isSome = true →
      execInsertOrReplace p db = .ok (insertOrReplaceRow p db)) := by
  constructor
  · intro db pre post p e h
    unfold save_opportunities at h ⊢
    rw [List.foldl_append, List.foldl_append, List.foldl_cons]
    have hstep : saveStep (List.foldl saveStep db pre) p =
        List.foldl saveStep db pre := by
      simp only [saveStep]
      rw [h]
    rw [hstep]
  · intro p db ht hi
    obtain ⟨t, ht2⟩ := Option.isSome_iff_exists.mp ht
    obtain ⟨i, hi2⟩ := Option.isSome_iff_exists.mp hi
    simp [execInsertOrReplace, ht2, hi2]

/-- C9 witness: a batch whose first posting violates a `NOT NULL` constraint
is saved as if that posting were absent; a valid posting whose url is already
stored is accepted without error. -/
theorem save_opportunities_integrity_error_skipped_witness :
    save_opportunities []
      [⟨none, some "I", "", none, 0, "", [], "", "https://x.edu/1", "other"⟩,
       ⟨some "T", some "I", "", none, 0, "", [], "", "https://x.edu/2", "other"⟩] =
      save_opportunities []
        [⟨some "T", some "I", "", none, 0, "", [], "", "https://x.edu/2", "other"⟩]
    ∧ execInsertOrReplace
        ⟨some "T", some "I", "", none, 0, "", [], "", "https://x.edu/2", "other"⟩
        [⟨some "U", some "J", "", none, 0, "", [], "", "https://x.edu/2", "other"⟩] =
      .ok (insertOrReplaceRow
        ⟨some "T", some "I", "", none, 0, "", [], "", "https://x.edu/2", "other"⟩
        [⟨some "U", some "J", "", none, 0, "", [], "", "https://x.edu/2", "other"⟩]) :=
  ⟨save_opportunities_integrity_error_skipped.1 [] [] _ _ .integrityError rfl,
   save_opportunities_integrity_error_skipped.2 _ _ rfl rfl⟩

/-- C10: every candidate emitted by the pattern-ID strategy carries the fixed
institution "Paul Scherrer Institute" and location "Switzerland"; the
strategy takes no institution label at all. -/
theorem pattern_id_fixed_institution (today : Int) (base_url : String)
    (anchors : List Anchor) (o : JobOpportunity)
    (ho : o ∈ scrape_psi_jobs today base_url anchors) :
    o.institution = some "Paul Scherrer Institute"
    ∧ o.location = "Switzerland" := by
  unfold scrape_psi_jobs at ho
  rw [List.mem_filterMap] at ho
  obtain ⟨a, -, heq⟩ := ho
  cases hh : a.href with
  | none => rw [hh] at heq; exact absurd heq (by simp)
  | some h =>
    rw [hh] at heq
    by_cases hk : (strContains (pyLower (pyStrip a.text)) "phd" ||
        strContains (pyLower (pyStrip a.text)) "student") = true
    · simp only [hk, if_true, Option.some.injEq] at heq
      subst heq
      exact ⟨rfl, rfl⟩
    · simp [hk] at heq

/-- C10 witness: the concrete emitted PSI candidate carries the fixed
institution and location. -/
theorem pattern_id_fixed_institution_witness :
    (⟨some "PhD Student Position", some "Paul Scherrer Institute",
      "Switzerland", none, 0, "", [], "",
      "https://x.edu/job-opportunities/42", "university_website"⟩ :
        JobOpportunity).institution = some "Paul Scherrer Institute"
    ∧ (⟨some "PhD Student Position", some "Paul Scherrer Institute",
      "Switzerland", none, 0, "", [], "",
      "https://x.edu/job-opportunities/42", "university_website"⟩ :
        JobOpportunity).location = "Switzerland" :=
  pattern_id_fixed_institution 0 "https://x.edu"
    [⟨some "/job-opportunities/42", "PhD Student Position"⟩] _ (by decide)

end AcademicDirectory
